import Mathlib

/-!
Verification development for the RUL (remaining useful life) dashboard
pipeline: CSV header normalization, row validation, sequence windowing,
batch orchestration with cooperative cancellation, and threshold-driven
alert classification.

The definitions below are shallow embeddings of:
  * `src/frontend/src/components/ModernDashboard.tsx` — `transformRow`,
    `handleParseCsv`, `handleStartSimulation` (the orchestration loop),
    `calculateRealWorldRul`;
  * `src/unnamed/part_005` — the variant `transformRow` (with its direct
    backend-key fallback) and its `handleStartSimulation` result mapping;
  * `src/backend-api/index.js` — the alert generation of
    `POST /assets/:id/predict_rul` (shared with `src/unnamed/part_001`),
    `POST /assets/:id/predict_rul_bulk` and
    `POST /assets/:id/predict_rul_bulk_fast`.

Finite JavaScript numbers are modelled as `ℚ`; a `parseFloat` result is a
`JsNum` — a finite rational or `±Infinity`, the non-`NaN` values
`parseFloat` can return (`parseFloat('Infinity')` and overflowing literals
such as `'1e999'` yield `Infinity`, which passes the code's `isNaN`
checks).  JavaScript string helpers (`toLowerCase`, `trim`,
`replace(/\s+/g,'')`) are modelled as explicit character-list operations so
that they evaluate inside the kernel.  The outcome of
`parseFloat(String(cell).trim())` on a raw CSV cell is modelled by the
`CellVal` classification: a cell is absent (`undefined`/`null`), trims to
the empty string, is a string whose `parseFloat` is `NaN`, or parses to the
non-`NaN` number `v` — exactly the cases the validators branch on.
-/

namespace RulDash

/-- Character-level model of JavaScript `String.prototype.toLowerCase`. -/
def strLower (s : String) : String := ⟨s.data.map Char.toLower⟩

/-- Character-level model of JavaScript `String.prototype.trim`: drop
whitespace from both ends (interior whitespace is kept). -/
def strTrim (s : String) : String :=
  ⟨((s.data.dropWhile Char.isWhitespace).reverse.dropWhile Char.isWhitespace).reverse⟩

/-- Character-level model of JavaScript `replace(/\s+/g, '')`: remove every
whitespace character. -/
def stripWs (s : String) : String := ⟨s.data.filter (fun c => !c.isWhitespace)⟩

/-- A non-`NaN` JavaScript number as returned by a successful `parseFloat`:
a finite value, or `Infinity`/`-Infinity` (from cells such as `Infinity` or
`1e999`, for which `isNaN` is still `false`). -/
inductive JsNum where
  | fin (q : ℚ) : JsNum
  | posInf : JsNum
  | negInf : JsNum
deriving DecidableEq

/-- JavaScript `Number.isFinite` on a non-`NaN` number. -/
def JsNum.isFinite : JsNum → Bool
  | JsNum.fin _ => true
  | JsNum.posInf => false
  | JsNum.negInf => false

/-- Outcome of reading one raw CSV cell, at the granularity observed by the
validators: the cell is `undefined`/`null`, its string trims to `''`, its
trimmed string `parseFloat`s to `NaN`, or it parses to the non-`NaN`
number `v` (finite or `±Infinity` — the validators check only `isNaN`, so
an infinite parse is on the accepting path).  `nonNumeric` keeps the
trimmed string because rejection messages quote it. -/
inductive CellVal where
  | missing : CellVal
  | emptyCell : CellVal
  | nonNumeric (s : String) : CellVal
  | numeric (v : JsNum) : CellVal
deriving DecidableEq

/-- A parsed CSV row: ordered column-name/cell pairs (PapaParse row object). -/
abbrev RawRow := List (String × CellVal)

/-- JavaScript property read `row[h]`: the first binding of `h`, and
`undefined` (here `CellVal.missing`) when the key is absent. -/
def jsLookup (row : RawRow) (h : String) : CellVal :=
  match row.find? (fun p => p.1 == h) with
  | some p => p.2
  | none => CellVal.missing

/-- JavaScript `Array.prototype.indexOf` over strings, with `none` for -1. -/
def jsIndexOf (xs : List String) (x : String) : Option Nat :=
  xs.findIdx? (fun h => h == x)

/-! ### Field normalizer and row validator of ModernDashboard.tsx -/

/-- Alias table `headerMapping` of `ModernDashboard.tsx`, in the literal's
key order (JavaScript object iteration order for string keys). -/
def headerMapping : List (String × String) :=
  [("x_direction", "x_direction"),
   ("y_direction", "y_direction"),
   ("bearing_temperature", "bearing_temperature"),
   ("env_temperature", "env_temperature"),
   ("x", "x_direction"),
   ("y", "y_direction"),
   ("bearing_temp", "bearing_temperature"),
   ("env_temp", "env_temperature"),
   ("x direction", "x_direction"),
   ("y direction", "y_direction"),
   ("bearing temp", "bearing_temperature"),
   ("env temp", "env_temperature")]

/-- The four canonical sensor-field names (`requiredBackendKeys`). -/
def requiredBackendKeys : List String :=
  ["x_direction", "y_direction", "bearing_temperature", "env_temperature"]

/-- Header normalization of `ModernDashboard.tsx`:
`h.toLowerCase().trim()`. -/
def normalizeHeader (h : String) : String := strTrim (strLower h)

/-- Core of the header resolution, over the already-normalized header list
`lowerHs` (the code computes `lowerCsvHeaders` once per row): scan the alias
table in order, and for each alias mapped to `key` look its lowercased
spelling up in `lowerHs`; the first hit wins (`break`).  If no alias is
found, fall back to `indexOf` of the lowercased canonical key itself. -/
def resolveCore (key : String) (lowerHs : List String) : Option Nat :=
  match headerMapping.findSome?
      (fun p => if p.2 == key then jsIndexOf lowerHs (strLower p.1) else none) with
  | some i => some i
  | none => jsIndexOf lowerHs (strLower key)

/-- Header resolution of `transformRow` in `ModernDashboard.tsx`: the index
into `hs` of the column used for canonical field `key`, or `none` when the
required column is not found. -/
def resolveHeader (key : String) (hs : List String) : Option Nat :=
  resolveCore key (hs.map normalizeHeader)

/-- Modelled from the spec: the two-stage matching as §4.1 words it — every
alias spelling whose normalized form equals a normalized supplied header is
tried first, and only if no alias matches is an exact normalized match
against the canonical name itself tried.  Used to compare the spec's
description with `resolveHeader` above. -/
def resolveHeaderSpec (key : String) (hs : List String) : Option Nat :=
  match (headerMapping.filter (fun p => p.2 == key)).findSome?
      (fun p => jsIndexOf (hs.map normalizeHeader) (normalizeHeader p.1)) with
  | some i => some i
  | none => jsIndexOf (hs.map normalizeHeader) (normalizeHeader key)

/-- The `expected as …` clause of the column-not-found message: the quoted
alias spellings for `key` joined by `or`, then the canonical key itself. -/
def expectationFor (key : String) : String :=
  let em := String.intercalate " or "
    (((headerMapping.filter (fun p => p.2 == key)).map (fun p => p.1)).map
      (fun k => "'" ++ k ++ "'"))
  if em = "" then "'" ++ key ++ "'" else em ++ " or '" ++ key ++ "'"

/-- Validation of a single canonical field of a row, from `transformRow` in
`ModernDashboard.tsx`: resolve the column, then reject a missing value, an
empty (after trim) value, or a value whose `parseFloat` is `NaN`, each
with the message the code builds (`n` is the 1-based CSV row number); a
non-`NaN` parse is accepted, finite or not (the code checks only
`isNaN(valNum)`). -/
def transformField (row : RawRow) (hs : List String) (n : Nat) (key : String) :
    Except String JsNum :=
  match resolveHeader key hs with
  | none =>
      Except.error (("Row " ++ toString n ++ ": ") ++
        "Required column for sensor reading " ++ ("'" ++ key ++ "'") ++
        (" (expected as " ++ expectationFor key ++
         ") not found in CSV. Available CSV headers: [" ++
         String.intercalate ", " hs ++ "]"))
  | some idx =>
      let mappedCsvHeader := hs.getD idx ""
      match jsLookup row mappedCsvHeader with
      | CellVal.missing =>
          Except.error (("Row " ++ toString n ++ ": ") ++
            ("Value for column '" ++ mappedCsvHeader ++ "' (for sensor ") ++
            ("'" ++ key ++ "'") ++ ") is missing.")
      | CellVal.emptyCell =>
          Except.error (("Row " ++ toString n ++ ": ") ++
            ("Value for column '" ++ mappedCsvHeader ++ "' (for sensor ") ++
            ("'" ++ key ++ "'") ++ ") is empty.")
      | CellVal.nonNumeric s =>
          Except.error (("Row " ++ toString n ++ ": ") ++
            ("Value '" ++ s ++ "' in column '" ++ mappedCsvHeader ++
             "' (for sensor ") ++ ("'" ++ key ++ "'") ++
            ") is not a valid number.")
      | CellVal.numeric v => Except.ok v

/-- Sequential field loop of `transformRow`: the first failing field aborts
the whole row with its message; on success the canonical pairs are
accumulated in field order. -/
def transformRowAux (row : RawRow) (hs : List String) (n : Nat) :
    List String → Except String (List (String × JsNum))
  | [] => Except.ok []
  | key :: keys =>
      match transformField row hs n key with
      | Except.error e => Except.error e
      | Except.ok q =>
          match transformRowAux row hs n keys with
          | Except.error e => Except.error e
          | Except.ok rest => Except.ok ((key, q) :: rest)

/-- `transformRow` of `ModernDashboard.tsx`: a fully validated reading (all
four canonical fields numeric) or the first rejection message. -/
def transformRow (row : RawRow) (hs : List String) (n : Nat) :
    Except String (List (String × JsNum)) :=
  transformRowAux row hs n requiredBackendKeys

/-- The value the validator would use for field `key` of `row`: the resolved
column's cell when it parses non-`NaN`.  `none` exactly when the field
fails validation (column unresolved, or cell missing/empty/`NaN`). -/
def fieldValue (row : RawRow) (hs : List String) (key : String) : Option JsNum :=
  match resolveHeader key hs with
  | none => none
  | some idx =>
      match jsLookup row (hs.getD idx "") with
      | CellVal.numeric v => some v
      | _ => none

/-- Validation loop of `handleParseCsv` in `ModernDashboard.tsx`, from the
0-based data-row index `i`: returns (transformedData, droppedRows,
warnings).  The CSV row number passed to `transformRow` is `i + 2` (1-based
with the header row as row 1). -/
def processRowsAux (hs : List String) : List RawRow → Nat →
    List (List (String × JsNum)) × Nat × List String
  | [], _ => ([], 0, [])
  | r :: rs, i =>
      let rest := processRowsAux hs rs (i + 1)
      match transformRow r hs (i + 2) with
      | Except.ok t => (t :: rest.1, rest.2.1, rest.2.2)
      | Except.error e => (rest.1, rest.2.1 + 1, e :: rest.2.2)

/-- Whole-file validation of `handleParseCsv`: every row through
`transformRow`, collecting valid readings, the dropped-row count and the
warning messages. -/
def processRows (hs : List String) (rows : List RawRow) :
    List (List (String × JsNum)) × Nat × List String :=
  processRowsAux hs rows 0

/-! ### Row validator of the part_005 dashboard variant -/

/-- Alias table of `src/unnamed/part_005`, in the literal's key order. -/
def headerMapping5 : List (String × String) :=
  [("x_direction", "x_direction"),
   ("xdirection", "x_direction"),
   ("x direction", "x_direction"),
   ("x-direction", "x_direction"),
   ("y_direction", "y_direction"),
   ("ydirection", "y_direction"),
   ("y direction", "y_direction"),
   ("y-direction", "y_direction"),
   ("bearingtem", "bearing_tem"),
   ("bearingtemp", "bearing_tem"),
   ("bearing_tem", "bearing_tem"),
   ("bearing_temp", "bearing_tem"),
   ("bearing tem", "bearing_tem"),
   ("bearing temp", "bearing_tem"),
   ("envtemp", "env_temp"),
   ("env_temp", "env_temp"),
   ("env temp", "env_temp"),
   ("environment temp", "env_temp"),
   ("environmenttemp", "env_temp")]

/-- The four canonical backend keys of the part_005 variant. -/
def requiredBackendKeys5 : List String :=
  ["x_direction", "y_direction", "bearing_tem", "env_temp"]

/-- Normalization of the part_005 variant:
`toLowerCase().replace(/\s+/g, '')`. -/
def norm5 (s : String) : String := stripWs (strLower s)

/-- Field lookup of the part_005 `transformRow`: every alias for `key` is
tried in table order — an alias whose normalized spelling matches a
normalized header contributes only if the cell of that header is present,
non-empty and numeric, otherwise the scan continues; when no alias yields a
value, the row's property named exactly `key` is read directly and used if
numeric. -/
def field5 (row : RawRow) (hs : List String) (key : String) : Option JsNum :=
  match headerMapping5.findSome? (fun p =>
      if p.2 == key then
        match hs.find? (fun h => norm5 h == norm5 p.1) with
        | some h =>
            match jsLookup row h with
            | CellVal.numeric v => some v
            | _ => none
        | none => none
      else none) with
  | some q => some q
  | none =>
      match jsLookup row key with
      | CellVal.numeric v => some v
      | _ => none

/-- Sequential key loop of the part_005 `transformRow`: any key without a
value rejects the whole row (`null`). -/
def transformRow5Aux (row : RawRow) (hs : List String) :
    List String → Option (List (String × JsNum))
  | [] => some []
  | key :: keys =>
      match field5 row hs key with
      | none => none
      | some q =>
          match transformRow5Aux row hs keys with
          | none => none
          | some rest => some ((key, q) :: rest)

/-- `transformRow` of `src/unnamed/part_005`. -/
def transformRow5 (row : RawRow) (hs : List String) :
    Option (List (String × JsNum)) :=
  transformRow5Aux row hs requiredBackendKeys5

/-- Rows of the `i`-th (0-based) candidate sequence in the part_005
`handleStartSimulation`: the raw 50-row slice, keeping only rows that
validate (`transformRow !== null`).  The sequence is submitted only when
all 50 survive. -/
def seqRows5 (data : List RawRow) (hs : List String) (i : Nat) :
    List (List (String × JsNum)) :=
  ((data.drop (i * 50)).take 50).filterMap (fun r => transformRow5 r hs)

/-! ### Sequence windower -/

/-- Fixed window length `SEQUENCE_LENGTH = 50`. -/
def SEQUENCE_LENGTH : Nat := 50

/-- Windowing of `handleStartSimulation` in `ModernDashboard.tsx`:
`totalSequences = floor(length / 50)` and, for each `seqIndex` below it,
the slice `[seqIndex*50, seqIndex*50+50)`; the slice is kept only if it has
exactly 50 readings (the code's guard — always true below the floor). -/
def windowSequences {α : Type} (rs : List α) : List (List α) :=
  ((List.range (rs.length / 50)).map
      (fun k => (rs.drop (k * 50)).take 50)).filter
    (fun s => s.length == 50)

/-- Batch-range loop `for (i = 0; i < total; i += bsz)` of
`handleStartSimulation`, with explicit fuel (the loop runs at most `total`
iterations when `0 < bsz`): each batch is `(i, min (i+bsz) total)`. -/
def mkBatchesFrom (bsz : Nat) : Nat → Nat → Nat → List (Nat × Nat)
  | 0, _, _ => []
  | fuel + 1, total, i =>
      if i < total then (i, min (i + bsz) total) :: mkBatchesFrom bsz fuel total (i + bsz)
      else []

/-- The batch ranges `{start, end}` covering `total` sequences in groups of
at most `bsz`. -/
def mkBatches (total bsz : Nat) : List (Nat × Nat) :=
  mkBatchesFrom bsz total total 0

/-! ### Batch orchestrator of ModernDashboard.tsx -/

/-- One per-sequence entry of a bulk response: `predicted_rul` and the
optional `error` string. -/
structure Prediction where
  predicted_rul : ℚ
  error : Option String
deriving DecidableEq

/-- One entry of `simulationResults`: `{sequenceNumber, predictedRul,
error?}`.  The wall-clock `timestamp` field is not modelled. -/
structure SimResult where
  sequenceNumber : Nat
  predictedRul : ℚ
  error : Option String
deriving DecidableEq

/-- The user-controlled real-world adjustment parameters of the dashboard
(`pRealWorld`, `rpmReal`, `combinedKStar`). -/
structure RulParams where
  pRealWorld : ℚ
  rpmReal : ℚ
  combinedKStar : ℚ
deriving DecidableEq

/-- `calculateRealWorldRul` of `ModernDashboard.tsx`:
`baseline * (P_ALT/p)^3 * (RPM_ALT/rpm) * kStar`, with zero factors when a
parameter is not positive. -/
def calculateRealWorldRul (ps : RulParams) (baselineRulHours : ℚ) : ℚ :=
  let pAlt : ℚ := 7115 / 1000
  let rpmAlt : ℚ := 1775
  let loadLifeFactor : ℚ := if 0 < ps.pRealWorld then (pAlt / ps.pRealWorld) ^ 3 else 0
  let speedFactor : ℚ := if 0 < ps.rpmReal then rpmAlt / ps.rpmReal else 0
  baselineRulHours * loadLifeFactor * speedFactor * ps.combinedKStar

/-- JavaScript `a || b` on optional strings: the left value when it is a
non-empty (truthy) string, otherwise the right. -/
def jsOr (a b : Option String) : Option String :=
  match a with
  | some s => if s = "" then b else some s
  | none => b

/-- Result-record mapping of `handleStartSimulation` in
`ModernDashboard.tsx`: the real-world adjustment is applied to positive
RULs, and `error` is the response's error or, for `predicted_rul <= 0`,
the sentinel message `Invalid prediction result`. -/
def resultOfPrediction (ps : RulParams) (sn : Nat) (p : Prediction) : SimResult :=
  { sequenceNumber := sn
    predictedRul := if 0 < p.predicted_rul then calculateRealWorldRul ps p.predicted_rul else 0
    error := jsOr p.error (if p.predicted_rul ≤ 0 then some "Invalid prediction result" else none) }

/-- Result-record mapping of the part_005 `handleStartSimulation`: the raw
RUL is kept when positive (else 0), and `error` is set only for
`predicted_rul < 0` (the response's own error string is not consulted). -/
def resultOfPrediction5 (sn : Nat) (p : Prediction) : SimResult :=
  { sequenceNumber := sn
    predictedRul := if 0 < p.predicted_rul then p.predicted_rul else 0
    error := if p.predicted_rul < 0 then some "Prediction failed" else none }

/-- Reply of one bulk prediction call: the per-sequence predictions of a
2xx response, or the thrown transport/service failure's message. -/
inductive BatchReply where
  | ok (preds : List Prediction) : BatchReply
  | fail (msg : String) : BatchReply

/-- Sequences prepared for the batch `(b.1, b.2)`: for each `seqIndex` in
the range, the 50-row slice of the validated data paired with its 1-based
`sequenceNumber = seqIndex + 1`, kept only when the slice is full (the
code's `length === SEQUENCE_LENGTH` push guard). -/
def batchSeqs {α : Type} (data : List α) (b : Nat × Nat) : List (List α × Nat) :=
  (((List.range' b.1 (b.2 - b.1)).map
      (fun k => ((data.drop (k * 50)).take 50, k + 1))).filter
    (fun s => s.1.length == 50))

/-- Error record created in the batch-level `catch`:
`predictedRul = 0` and message `API Error: …`. -/
def errorResult (sn : Nat) (msg : String) : SimResult :=
  { sequenceNumber := sn, predictedRul := 0, error := some ("API Error: " ++ msg) }

/-- One orchestrator iteration: prepare the batch's sequences; when some
exist, submit them (`responder idx` is the bulk API call for batch `idx`) —
a successful reply is mapped position-wise onto the batch's sequence
numbers, a thrown failure degrades to one `errorResult` per submitted
sequence. -/
def processBatch {α : Type} (ps : RulParams) (responder : Nat → List (List α) → BatchReply)
    (data : List α) (idx : Nat) (b : Nat × Nat) : List SimResult :=
  let seqs := batchSeqs data b
  if seqs.isEmpty then []
  else
    match responder idx (seqs.map (fun s => s.1)) with
    | BatchReply.ok preds =>
        (preds.zip (seqs.map (fun s => s.2))).map (fun q => resultOfPrediction ps q.2 q.1)
    | BatchReply.fail msg => seqs.map (fun s => errorResult s.2 msg)

/-- The batch loop without cancellation: every batch processed in order,
results appended. -/
def runAll {α : Type} (ps : RulParams) (responder : Nat → List (List α) → BatchReply)
    (data : List α) : List (Nat × Nat) → Nat → List SimResult
  | [], _ => []
  | b :: rest, idx =>
      processBatch ps responder data idx b ++ runAll ps responder data rest (idx + 1)

/-- The batch loop with the cooperative cancellation flag: `sig idx` is the
abort flag as observed at the boundary before batch `idx`; a set flag stops
the loop before submitting that batch (`break`), keeping all results
already accumulated. -/
def runFrom {α : Type} (ps : RulParams) (responder : Nat → List (List α) → BatchReply)
    (sig : Nat → Bool) (data : List α) : List (Nat × Nat) → Nat → List SimResult
  | [], _ => []
  | b :: rest, idx =>
      if sig idx then []
      else processBatch ps responder data idx b ++ runFrom ps responder sig data rest (idx + 1)

/-- `handleStartSimulation` of `ModernDashboard.tsx` as a function of the
validated data, batch size, per-batch responder and cancellation flag:
`totalSequences = floor(data.length/50)` sequences processed in batches. -/
def runSimulation {α : Type} (ps : RulParams) (responder : Nat → List (List α) → BatchReply)
    (sig : Nat → Bool) (data : List α) (bsz : Nat) : List SimResult :=
  runFrom ps responder sig data (mkBatches (data.length / 50) bsz) 0

/-! ### Alert classification of the backend endpoints -/

/-- An `alerts` table insert (`asset_id` is the same constant per request
and is omitted): severity, message, `rul_at_alert`, and the triggering
condition tag. -/
structure AlertRec where
  severity : String
  message : String
  rulAtAlert : ℚ
  triggeringCondition : String
deriving DecidableEq

/-- The critical alert built by `predict_rul` and `predict_rul_bulk`. -/
def critAlert (r : ℚ) : AlertRec :=
  { severity := "critical"
    message := "Asset RUL is critically low: " ++ toString r ++ "."
    rulAtAlert := r
    triggeringCondition := "RUL_THRESHOLD_CRITICAL" }

/-- The warning alert built by `predict_rul` and `predict_rul_bulk`. -/
def warnAlert (r : ℚ) : AlertRec :=
  { severity := "warning"
    message := "Asset RUL is low: " ++ toString r ++ "."
    rulAtAlert := r
    triggeringCondition := "RUL_THRESHOLD_WARNING" }

/-- Alert generation of the single `POST /assets/:id/predict_rul` endpoint
(`src/unnamed/part_001` and `src/backend-api/index.js`): critical below
20000, warning below 60000, otherwise no alert. -/
def singleAlertToInsert (r : ℚ) : Option AlertRec :=
  if r < 20000 then some (critAlert r)
  else if r < 60000 then some (warnAlert r)
  else none

/-- `alertInserts` of `POST /assets/:id/predict_rul_bulk`: per prediction in
order, failed predictions (`predicted_rul < 0`) are skipped, then critical
below 20000, warning below 60000. -/
def standardBulkAlerts (preds : List ℚ) : List AlertRec :=
  preds.filterMap (fun r =>
    if r < 0 then none
    else if r < 20000 then some (critAlert r)
    else if r < 60000 then some (warnAlert r)
    else none)

/-- `alertInserts` of `POST /assets/:id/predict_rul_bulk_fast`: from the
kept predictions (`predicted_rul > 0`), those below 60000 are mapped to an
alert whose severity, message and condition tag are chosen by
`predicted_rul < 20000`. -/
def fastBulkAlerts (preds : List ℚ) : List AlertRec :=
  ((preds.filter (fun r => decide (0 < r))).filter (fun r => decide (r < 60000))).map
    (fun r =>
      { severity := if r < 20000 then "critical" else "warning"
        message := "Asset RUL is " ++ (if r < 20000 then "critically" else "") ++
          " low: " ++ toString r ++ "."
        rulAtAlert := r
        triggeringCondition :=
          if r < 20000 then "RUL_THRESHOLD_CRITICAL" else "RUL_THRESHOLD_WARNING" })

/-- `predictionInserts` of the standard bulk endpoint: each prediction
paired with its input sequence snapshot, keeping those with
`predicted_rul >= 0` (the loop `continue`s only on `< 0`). -/
def standardPredictionInserts {σ : Type} (preds : List ℚ) (seqs : List σ) : List (ℚ × σ) :=
  (preds.zip seqs).filter (fun p => !decide (p.1 < 0))

/-- `predictionInserts` of the fast bulk endpoint: each prediction paired
with its snapshot, keeping those with `predicted_rul > 0`. -/
def fastPredictionInserts {σ : Type} (preds : List ℚ) (seqs : List σ) : List (ℚ × σ) :=
  (preds.zip seqs).filter (fun p => decide (0 < p.1))

/-- The `predictions` array of the bulk response body: the upstream model
predictions passed through unchanged (standard endpoint). -/
def standardBulkResponsePreds (preds : List ℚ) : List ℚ := preds

/-- The `predictions` array of the fast bulk response body: the upstream
model predictions passed through unchanged. -/
def fastBulkResponsePreds (preds : List ℚ) : List ℚ := preds

/-- Modelled from the spec: the claimed severity of the alert emitted for a
healthy (`predictedRul > 0`) prediction — exactly one critical alert below
the critical threshold, one warning alert between the thresholds, and none
otherwise. -/
def claimedAlertSeverities (r : ℚ) : List String :=
  if r < 20000 then ["critical"] else if r < 60000 then ["warning"] else []

/-- Projection of an alert to its classification content (severity, RUL,
triggering condition), forgetting the message text. -/
def alertCore (a : AlertRec) : String × ℚ × String :=
  (a.severity, a.rulAtAlert, a.triggeringCondition)

/-! ### Helper lemmas: the windower -/

theorem slice_length_of_lt {α : Type} (rs : List α) (k : Nat) (hk : k < rs.length / 50) :
    ((rs.drop (k * 50)).take 50).length = 50 := by
  have h1 : (k + 1) * 50 ≤ rs.length / 50 * 50 := Nat.mul_le_mul_right 50 hk
  have h2 : rs.length / 50 * 50 ≤ rs.length := Nat.div_mul_le_self _ _
  simp only [List.length_take, List.length_drop]
  omega

theorem windowSequences_eq_map {α : Type} (rs : List α) :
    windowSequences rs =
      (List.range (rs.length / 50)).map (fun k => (rs.drop (k * 50)).take 50) := by
  apply List.filter_eq_self.mpr
  intro s hs
  rw [List.mem_map] at hs
  obtain ⟨k, hk, rfl⟩ := hs
  rw [List.mem_range] at hk
  simp [slice_length_of_lt rs k hk]

theorem windowSequences_length {α : Type} (rs : List α) :
    (windowSequences rs).length = rs.length / 50 := by
  rw [windowSequences_eq_map]; simp

theorem join_chunks {α : Type} (rs : List α) :
    ∀ n, n * 50 ≤ rs.length →
      ((List.range n).map (fun k => (rs.drop (k * 50)).take 50)).flatten = rs.take (n * 50) := by
  intro n
  induction n with
  | zero => intro _; simp
  | succ n ih =>
      intro h
      have hn : n * 50 ≤ rs.length := by omega
      rw [List.range_succ, List.map_append, List.flatten_append, ih hn]
      simp only [List.map_cons, List.map_nil, List.flatten_cons, List.flatten_nil,
        List.append_nil]
      rw [show (n + 1) * 50 = n * 50 + 50 by ring, List.take_add]

theorem windowSequences_flatten {α : Type} (rs : List α) :
    (windowSequences rs).flatten = rs.take (rs.length / 50 * 50) := by
  rw [windowSequences_eq_map]
  exact join_chunks rs _ (Nat.div_mul_le_self _ _)

theorem windowSequences_getD {α : Type} (rs : List α) (k : Nat) :
    (windowSequences rs).getD k [] =
      if k < rs.length / 50 then (rs.drop (k * 50)).take 50 else [] := by
  rw [windowSequences_eq_map, List.getD_eq_getElem?_getD]
  rcases Nat.lt_or_ge k (rs.length / 50) with hk | hk
  · rw [List.getElem?_map, List.getElem?_range hk, if_pos hk]
    rfl
  · rw [List.getElem?_eq_none (by simpa using hk), if_neg (by omega)]
    rfl

theorem mkBatchesFrom_ranges (bsz : Nat) (hb : 0 < bsz) :
    ∀ fuel total i, total - i ≤ fuel →
      ((mkBatchesFrom bsz fuel total i).map
          (fun b => List.range' b.1 (b.2 - b.1))).flatten = List.range' i (total - i) := by
  intro fuel
  induction fuel with
  | zero =>
      intro total i h
      rw [show total - i = 0 by omega]
      simp [mkBatchesFrom]
  | succ fuel ih =>
      intro total i h
      by_cases hi : i < total
      · rw [mkBatchesFrom, if_pos hi]
        simp only [List.map_cons, List.flatten_cons]
        rw [ih total (i + bsz) (by omega)]
        by_cases hc : i + bsz ≤ total
        · rw [show min (i + bsz) total - i = bsz by omega]
          have happ := List.range'_append i bsz (total - i - bsz) 1
          simp only [one_mul] at happ
          rw [show total - (i + bsz) = total - i - bsz by omega, happ]
          congr 1
          omega
        · rw [show min (i + bsz) total - i = total - i by omega,
            show total - (i + bsz) = 0 by omega, List.range'_zero, List.append_nil]
      · rw [mkBatchesFrom, if_neg hi, show total - i = 0 by omega]
        simp

theorem batchSeqs_fst {α : Type} (data : List α) (b : Nat × Nat) :
    (batchSeqs data b).map (fun s => s.1) =
      ((List.range' b.1 (b.2 - b.1)).filter
          (fun k => ((data.drop (k * 50)).take 50).length == 50)).map
        (fun k => (data.drop (k * 50)).take 50) := by
  unfold batchSeqs
  rw [List.filter_map, List.map_map]
  rfl

theorem flatten_map_map {α β γ : Type} (L : List β) (g : β → List γ) (f : γ → α) :
    (L.map (fun x => (g x).map f)).flatten = ((L.map g).flatten).map f := by
  induction L with
  | nil => simp
  | cons b L ih => simp [ih]

theorem flatten_map_filter {β γ : Type} (L : List β) (g : β → List γ) (p : γ → Bool) :
    (L.map (fun x => (g x).filter p)).flatten = ((L.map g).flatten).filter p := by
  induction L with
  | nil => simp
  | cons b L ih => simp [List.filter_append, ih]

theorem chunks_tie {α : Type} (rs : List α) (bsz : Nat) (hb : 0 < bsz) :
    ((mkBatches (rs.length / 50) bsz).map
        (fun b => (batchSeqs rs b).map (fun s => s.1))).flatten = windowSequences rs := by
  have h1 : ((mkBatches (rs.length / 50) bsz).map
      (fun b => (batchSeqs rs b).map (fun s => s.1))).flatten =
      ((mkBatches (rs.length / 50) bsz).map
        (fun b => ((List.range' b.1 (b.2 - b.1)).filter
            (fun k => ((rs.drop (k * 50)).take 50).length == 50)).map
          (fun k => (rs.drop (k * 50)).take 50))).flatten := by
    congr 1
    exact List.map_congr_left (fun b _ => batchSeqs_fst rs b)
  rw [h1, flatten_map_map, flatten_map_filter]
  have h2 := mkBatchesFrom_ranges bsz hb (rs.length / 50) (rs.length / 50) 0 (by omega)
  rw [show mkBatches (rs.length / 50) bsz = mkBatchesFrom bsz (rs.length / 50) (rs.length / 50) 0 from rfl,
    h2, Nat.sub_zero, ← List.range_eq_range']
  rw [windowSequences, List.filter_map]
  rfl

/-- C2: the windower forms exactly `floor(V/50)` sequences; sequence `k`
(0-indexed) is exactly the slice `readings[k*50 : k*50+50]`; the flattened
submitted sequences are exactly the first `floor(V/50)*50` readings, so the
`V mod 50` leftover readings are never part of any sequence; and the
batch loop of `handleStartSimulation` submits exactly these windows. -/
theorem windower_floor_div_sequences {α : Type} (rs : List α) (bsz : Nat) (hb : 0 < bsz) :
    (windowSequences rs).length = rs.length / 50
    ∧ (∀ k, (windowSequences rs).getD k [] =
        if k < rs.length / 50 then (rs.drop (k * 50)).take 50 else [])
    ∧ (windowSequences rs).flatten = rs.take (rs.length / 50 * 50)
    ∧ ((mkBatches (rs.length / 50) bsz).map
        (fun b => (batchSeqs rs b).map (fun s => s.1))).flatten = windowSequences rs :=
  ⟨windowSequences_length rs, windowSequences_getD rs, windowSequences_flatten rs,
    chunks_tie rs bsz hb⟩

/-- Witness for C2 at a concrete input: 120 readings, batch size 30. -/
theorem windower_floor_div_sequences_witness :
    0 < 30 ∧ (windowSequences (List.range 120)).length = 120 / 50 := by
  refine ⟨by norm_num, ?_⟩
  have h := (windower_floor_div_sequences (List.range 120) 30 (by norm_num)).1
  simpa using h

/-! ### Helper lemmas: alert classification -/

theorem standardBulkAlerts_cons (x : ℚ) (xs : List ℚ) :
    standardBulkAlerts (x :: xs) = standardBulkAlerts [x] ++ standardBulkAlerts xs := by
  unfold standardBulkAlerts
  rw [List.filterMap_cons, List.filterMap_cons, List.filterMap_nil]
  cases (if x < 0 then none
    else if x < 20000 then some (critAlert x)
    else if x < 60000 then some (warnAlert x)
    else none) <;> simp

theorem fastBulkAlerts_cons (x : ℚ) (xs : List ℚ) :
    fastBulkAlerts (x :: xs) = fastBulkAlerts [x] ++ fastBulkAlerts xs := by
  unfold fastBulkAlerts
  by_cases h1 : 0 < x <;> by_cases h2 : x < 60000 <;>
    simp [List.filter_cons, h1, h2]

theorem alerts_flatten_decomp (F : List ℚ → List AlertRec) (hnil : F [] = [])
    (hcons : ∀ x xs, F (x :: xs) = F [x] ++ F xs) :
    ∀ l : List ℚ, F l = (l.map (fun x => F [x])).flatten := by
  intro l
  induction l with
  | nil => simpa using hnil
  | cons x xs ih => rw [hcons, ih]; simp

/-- C1: for a healthy prediction (`predictedRul > 0`), every one of the
three alert-generation sites — the single `predict_rul` endpoint, the
standard bulk endpoint, and the fast bulk endpoint — emits exactly one
critical alert when the RUL is below 20000, exactly one warning alert when
it is in `[20000, 60000)`, and no alert otherwise; and the two bulk sites
generate their alert list pointwise over the prediction list, so each
outcome contributes exactly its own alerts. -/
theorem alert_classifier_exact (r : ℚ) (hr : 0 < r) (preds : List ℚ) :
    (singleAlertToInsert r).toList.map AlertRec.severity = claimedAlertSeverities r
    ∧ (standardBulkAlerts [r]).map AlertRec.severity = claimedAlertSeverities r
    ∧ (fastBulkAlerts [r]).map AlertRec.severity = claimedAlertSeverities r
    ∧ standardBulkAlerts preds = (preds.map (fun x => standardBulkAlerts [x])).flatten
    ∧ fastBulkAlerts preds = (preds.map (fun x => fastBulkAlerts [x])).flatten := by
  refine ⟨?_, ?_, ?_, ?_, ?_⟩
  · unfold singleAlertToInsert claimedAlertSeverities
    split_ifs <;> simp [critAlert, warnAlert]
  · unfold standardBulkAlerts claimedAlertSeverities
    rw [List.filterMap_cons, List.filterMap_nil, if_neg (by linarith : ¬ r < 0)]
    split_ifs <;> simp [critAlert, warnAlert]
  · unfold fastBulkAlerts claimedAlertSeverities
    by_cases h2 : r < 60000 <;> by_cases h3 : r < 20000
    · simp [List.filter_cons, hr, h2, h3]
    · simp [List.filter_cons, hr, h2, h3]
    · exact absurd (h3.trans (by norm_num)) h2
    · simp [List.filter_cons, hr, h2, h3]
  · exact alerts_flatten_decomp standardBulkAlerts rfl standardBulkAlerts_cons preds
  · exact alerts_flatten_decomp fastBulkAlerts rfl fastBulkAlerts_cons preds

/-- Witness for C1 at a concrete healthy prediction (`15000`, below the
critical threshold). -/
theorem alert_classifier_exact_witness :
    (0 : ℚ) < 15000 ∧ (standardBulkAlerts [15000]).map AlertRec.severity = ["critical"] := by
  constructor
  · norm_num
  · have h := (alert_classifier_exact 15000 (by norm_num) []).2.1
    rw [h]
    rw [claimedAlertSeverities, if_pos (by norm_num : (15000:ℚ) < 20000)]

/-! ### C4: fast bulk endpoint vs standard bulk endpoint -/

/-- C4 counterexample: the two bulk endpoints are not interchangeable as
claimed.  At `predicted_rul = 0` the standard endpoint persists the
prediction and emits a critical alert while the fast endpoint drops both;
and at `predicted_rul = 30000` the warning alert messages differ textually
(the fast path renders a doubled space in `Asset RUL is  low:`). -/
theorem bulk_fast_not_interchangeable :
    standardPredictionInserts [(0 : ℚ)] [(0 : Nat)] ≠ fastPredictionInserts [(0 : ℚ)] [(0 : Nat)]
    ∧ standardBulkAlerts [(0 : ℚ)] ≠ fastBulkAlerts [(0 : ℚ)]
    ∧ (standardBulkAlerts [(30000 : ℚ)]).map AlertRec.message ≠
        (fastBulkAlerts [(30000 : ℚ)]).map AlertRec.message := by
  refine ⟨?_, ?_, ?_⟩ <;> decide

theorem bulk_fast_alert_core_single (x : ℚ) (hx : x ≠ 0) :
    (standardBulkAlerts [x]).map alertCore = (fastBulkAlerts [x]).map alertCore := by
  rcases lt_or_gt_of_ne hx with hneg | hpos
  · simp [standardBulkAlerts, fastBulkAlerts, List.filter_cons, hneg, lt_asymm hneg]
  · unfold standardBulkAlerts fastBulkAlerts
    by_cases h2 : x < 20000 <;> by_cases h3 : x < 60000
    · simp [List.filter_cons, hpos, h2, h3, lt_asymm hpos, alertCore, critAlert, warnAlert]
    · exact absurd (h2.trans (by norm_num)) h3
    · simp [List.filter_cons, hpos, h2, h3, lt_asymm hpos, alertCore, critAlert, warnAlert]
    · simp [List.filter_cons, hpos, h2, h3, lt_asymm hpos, alertCore, critAlert, warnAlert]

/-- C4 amended: for every batch of upstream predictions none of which is
exactly 0, the standard and fast bulk endpoints persist the same
predictions (with the same snapshots), classify the same alerts — equal
severity, RUL and triggering condition; the message text still differs by
one space for warnings — and both return the upstream predictions
unchanged. -/
theorem bulk_fast_equiv_nonzero {σ : Type} (preds : List ℚ) (seqs : List σ)
    (h : ∀ r ∈ preds, r ≠ 0) :
    standardPredictionInserts preds seqs = fastPredictionInserts preds seqs
    ∧ (standardBulkAlerts preds).map alertCore = (fastBulkAlerts preds).map alertCore
    ∧ standardBulkResponsePreds preds = fastBulkResponsePreds preds := by
  refine ⟨?_, ?_, rfl⟩
  · unfold standardPredictionInserts fastPredictionInserts
    apply List.filter_congr
    intro x hx
    have hx1 : x.1 ∈ preds := (List.of_mem_zip hx).1
    rcases lt_or_gt_of_ne (h x.1 hx1) with hneg | hpos
    · simp [hneg, lt_asymm hneg]
    · simp [hpos, lt_asymm hpos]
  · induction preds with
    | nil => rfl
    | cons x xs ih =>
        have hx := h x (List.mem_cons_self x xs)
        have hxs : ∀ r ∈ xs, r ≠ 0 := fun r hr => h r (List.mem_cons_of_mem x hr)
        rw [standardBulkAlerts_cons, fastBulkAlerts_cons, List.map_append, List.map_append,
          ih hxs, bulk_fast_alert_core_single x hx]

/-- Witness for C4's amended claim at a concrete nonzero batch. -/
theorem bulk_fast_equiv_nonzero_witness :
    (∀ r ∈ ([50000, -1] : List ℚ), r ≠ 0)
    ∧ standardPredictionInserts ([50000, -1] : List ℚ) ([1, 2] : List Nat) =
        fastPredictionInserts ([50000, -1] : List ℚ) ([1, 2] : List Nat) := by
  have h : ∀ r ∈ ([50000, -1] : List ℚ), r ≠ 0 := by decide
  exact ⟨h, (bulk_fast_equiv_nonzero [50000, -1] [1, 2] h).1⟩

/-! ### C5: the `predictedRul <= 0` failure sentinel -/

/-- C5 counterexample: in the part_005 result mapping, a prediction with
`predicted_rul = 0` (which satisfies `predictedRul <= 0`) and no explicit
error string produces a result record whose `error` is absent — the claimed
error string is not attached. -/
theorem rul_zero_sentinel_counterexample :
    (resultOfPrediction5 7 ⟨0, none⟩).error = none ∧ ((0 : ℚ) ≤ 0) := by
  exact ⟨by decide, by norm_num⟩

/-- C5 amended: the `ModernDashboard.tsx` mapping treats every
`predictedRul <= 0` as failed — the result record always carries an error
string even when the response attaches none; the part_005 variant mapping
attaches its error string only for `predictedRul < 0`, and records
`predictedRul = 0` with a zero RUL and no error. -/
theorem rul_sentinel_amended (ps : RulParams) (sn : Nat) (r : ℚ) (e : Option String) :
    (r ≤ 0 → (resultOfPrediction ps sn ⟨r, e⟩).error.isSome = true)
    ∧ (r < 0 → (resultOfPrediction5 sn ⟨r, e⟩).error = some "Prediction failed")
    ∧ (resultOfPrediction5 sn ⟨(0 : ℚ), e⟩).error = none := by
  refine ⟨?_, ?_, ?_⟩
  · intro hr
    cases e with
    | none => simp [resultOfPrediction, jsOr, hr]
    | some s => by_cases hs : s = "" <;> simp [resultOfPrediction, jsOr, hr, hs]
  · intro hr
    simp [resultOfPrediction5, hr]
  · norm_num [resultOfPrediction5]

/-- Witness for C5's amended claim at `predicted_rul = -1`. -/
theorem rul_sentinel_amended_witness :
    ((-1 : ℚ) ≤ 0)
    ∧ (resultOfPrediction ⟨1, 1, 1⟩ 3 ⟨-1, none⟩).error.isSome = true
    ∧ (resultOfPrediction5 3 ⟨-1, none⟩).error = some "Prediction failed" := by
  have h := rul_sentinel_amended ⟨1, 1, 1⟩ 3 (-1) none
  exact ⟨by norm_num, h.1 (by norm_num), h.2.1 (by norm_num)⟩

/-! ### C6: batch-level failure handling -/

/-- C6: when the bulk call for a batch throws (`BatchReply.fail`) and the
cancellation flag is not set at that boundary, the orchestrator appends
exactly one error outcome per sequence submitted in that batch — never
fewer — and then continues with the remaining batches (no run-level
abort). -/
theorem batch_failure_error_outcomes {α : Type} (ps : RulParams)
    (responder : Nat → List (List α) → BatchReply) (sig : Nat → Bool) (data : List α)
    (b : Nat × Nat) (rest : List (Nat × Nat)) (idx : Nat) (msg : String)
    (hsig : sig idx = false)
    (hfail : responder idx ((batchSeqs data b).map (fun s => s.1)) = BatchReply.fail msg) :
    runFrom ps responder sig data (b :: rest) idx =
      (batchSeqs data b).map (fun s => errorResult s.2 msg)
        ++ runFrom ps responder sig data rest (idx + 1)
    ∧ ((batchSeqs data b).map (fun s => errorResult s.2 msg)).length =
        (batchSeqs data b).length := by
  constructor
  · rw [runFrom, hsig]
    simp only [Bool.false_eq_true, if_false]
    congr 1
    unfold processBatch
    by_cases hempty : (batchSeqs data b).isEmpty
    · rw [if_pos hempty, List.isEmpty_iff.mp hempty]
      rfl
    · rw [if_neg hempty, hfail]
  · exact List.length_map _ _

/-- Witness for C6: 100 validated rows, batch size 1, the first batch's
call fails with message `boom`, a second batch remains. -/
theorem batch_failure_error_outcomes_witness :
    runFrom (⟨1, 1, 1⟩ : RulParams)
        (fun i _ => if i = 0 then BatchReply.fail "boom"
          else BatchReply.ok [⟨100, none⟩])
        (fun _ => false) (List.replicate 100 ()) [(0, 1), (1, 2)] 0 =
      (batchSeqs (List.replicate 100 ()) (0, 1)).map (fun s => errorResult s.2 "boom")
        ++ runFrom ⟨1, 1, 1⟩
          (fun i _ => if i = 0 then BatchReply.fail "boom"
            else BatchReply.ok [⟨100, none⟩])
          (fun _ => false) (List.replicate 100 ()) [(1, 2)] 1 :=
  (batch_failure_error_outcomes ⟨1, 1, 1⟩ _ _ _ (0, 1) [(1, 2)] 0 "boom" rfl rfl).1

/-! ### C7: cooperative cancellation -/

theorem runFrom_take {α : Type} (ps : RulParams)
    (responder : Nat → List (List α) → BatchReply) (data : List α) (c : Nat)
    (sig : Nat → Bool) (hsig : ∀ j, sig j = decide (c ≤ j)) :
    ∀ (bs : List (Nat × Nat)) (idx : Nat),
      runFrom ps responder sig data bs idx =
        runAll ps responder data (bs.take (c - idx)) idx := by
  intro bs
  induction bs with
  | nil => intro idx; simp [runFrom, runAll]
  | cons b rest ih =>
      intro idx
      by_cases hc : c ≤ idx
      · have hs : sig idx = true := by rw [hsig idx]; simpa using hc
        rw [show c - idx = 0 by omega]
        simp [runFrom, hs, runAll]
      · have hs : sig idx = false := by rw [hsig idx]; simpa using hc
        rw [show c - idx = (c - (idx + 1)) + 1 by omega, List.take_succ_cons,
          runFrom, hs]
        simp only [Bool.false_eq_true, if_false]
        rw [runAll, ih (idx + 1)]

theorem processBatch_length {α : Type} (ps : RulParams)
    (responder : Nat → List (List α) → BatchReply) (data : List α) (idx : Nat) (b : Nat × Nat)
    (hlen : ∀ i seqs preds, responder i seqs = BatchReply.ok preds → preds.length = seqs.length) :
    (processBatch ps responder data idx b).length = (batchSeqs data b).length := by
  unfold processBatch
  by_cases hempty : (batchSeqs data b).isEmpty
  · rw [if_pos hempty, List.isEmpty_iff.mp hempty]
    rfl
  · rw [if_neg hempty]
    cases hresp : responder idx ((batchSeqs data b).map (fun s => s.1)) with
    | ok preds =>
        have hp := hlen idx _ preds hresp
        rw [List.length_map] at hp
        simp [List.length_zip, List.length_map, hp]
    | fail msg => simp

theorem runAll_length {α : Type} (ps : RulParams)
    (responder : Nat → List (List α) → BatchReply) (data : List α)
    (hlen : ∀ i seqs preds, responder i seqs = BatchReply.ok preds → preds.length = seqs.length) :
    ∀ (bs : List (Nat × Nat)) (idx : Nat),
      (runAll ps responder data bs idx).length =
        (bs.map (fun b => (batchSeqs data b).length)).sum := by
  intro bs
  induction bs with
  | nil => intro idx; simp [runAll]
  | cons b rest ih =>
      intro idx
      rw [runAll, List.length_append, processBatch_length ps responder data idx b hlen,
        ih (idx + 1), List.map_cons, List.sum_cons]

/-- C7: with a monotone cancellation flag first observed set at batch
boundary `c` (`sig j` is true exactly for `j >= c`), and a responder that
returns one prediction per submitted sequence, the run performs exactly the
first `c` batches — no batch at or past the boundary is submitted — and the
final `results.length` equals the sum of the sizes of the batches started
before the flag was observed. -/
theorem cancellation_preserves_results {α : Type} (ps : RulParams)
    (responder : Nat → List (List α) → BatchReply) (data : List α) (bsz : Nat)
    (sig : Nat → Bool) (c : Nat)
    (hsig : ∀ j, sig j = decide (c ≤ j))
    (hlen : ∀ i seqs preds, responder i seqs = BatchReply.ok preds → preds.length = seqs.length) :
    runSimulation ps responder sig data bsz =
      runAll ps responder data ((mkBatches (data.length / 50) bsz).take c) 0
    ∧ (runSimulation ps responder sig data bsz).length =
        (((mkBatches (data.length / 50) bsz).take c).map
          (fun b => (batchSeqs data b).length)).sum := by
  have h1 : runSimulation ps responder sig data bsz =
      runAll ps responder data ((mkBatches (data.length / 50) bsz).take c) 0 := by
    unfold runSimulation
    rw [runFrom_take ps responder data c sig hsig, Nat.sub_zero]
  exact ⟨h1, by rw [h1, runAll_length ps responder data hlen]⟩

/-- Witness for C7: 100 validated rows (2 sequences), batch size 1, flag
observed set from boundary 1 on — only the first batch's outcomes remain. -/
theorem cancellation_preserves_results_witness :
    (runSimulation (⟨1, 1, 1⟩ : RulParams)
        (fun _ seqs => BatchReply.ok (seqs.map (fun _ => (⟨100, none⟩ : Prediction))))
        (fun j => decide (1 ≤ j)) (List.replicate 100 ()) 1).length =
      (((mkBatches ((List.replicate 100 ()).length / 50) 1).take 1).map
        (fun b => (batchSeqs (List.replicate 100 ()) b).length)).sum :=
  (cancellation_preserves_results ⟨1, 1, 1⟩ _ (List.replicate 100 ()) 1 _ 1
    (fun _ => rfl)
    (by intro i seqs preds h; injection h with h; rw [← h, List.length_map])).2

/-! ### C8: all-or-nothing row validation with located messages -/

theorem string_assoc4 (A B C D : String) : ((A ++ B) ++ C) ++ D = A ++ (B ++ (C ++ D)) := by
  simp [String.append_assoc]

theorem transformField_ok_iff (row : RawRow) (hs : List String) (n : Nat) (key : String)
    (v : JsNum) :
    transformField row hs n key = Except.ok v ↔ fieldValue row hs key = some v := by
  unfold transformField fieldValue
  cases hr : resolveHeader key hs with
  | none => simp
  | some idx =>
      cases hl : jsLookup row (hs.getD idx "") <;>
        simp [-List.getD_eq_getElem?_getD, hl]

theorem transformField_error_shape (row : RawRow) (hs : List String) (n : Nat) (key : String)
    (m : String) (h : transformField row hs n key = Except.error m) :
    fieldValue row hs key = none
    ∧ (∃ s, m = ("Row " ++ toString n ++ ": ") ++ s)
    ∧ (∃ pre post, m = pre ++ ("'" ++ key ++ "'") ++ post) := by
  unfold transformField at h
  cases hr : resolveHeader key hs with
  | none =>
      rw [hr] at h
      simp only [Except.error.injEq] at h
      subst h
      refine ⟨by simp [fieldValue, hr], ⟨_, string_assoc4 _ _ _ _⟩, ⟨_ ++ _, _, rfl⟩⟩
  | some idx =>
      rw [hr] at h
      cases hl : jsLookup row (hs.getD idx "") with
      | missing =>
          simp only [hl, Except.error.injEq] at h
          subst h
          refine ⟨by simp [-List.getD_eq_getElem?_getD, fieldValue, hr, hl],
            ⟨_, string_assoc4 _ _ _ _⟩, ⟨_ ++ _, _, rfl⟩⟩
      | emptyCell =>
          simp only [hl, Except.error.injEq] at h
          subst h
          refine ⟨by simp [-List.getD_eq_getElem?_getD, fieldValue, hr, hl],
            ⟨_, string_assoc4 _ _ _ _⟩, ⟨_ ++ _, _, rfl⟩⟩
      | nonNumeric s =>
          simp only [hl, Except.error.injEq] at h
          subst h
          refine ⟨by simp [-List.getD_eq_getElem?_getD, fieldValue, hr, hl],
            ⟨_, string_assoc4 _ _ _ _⟩, ⟨_ ++ _, _, rfl⟩⟩
      | numeric q => simp [-List.getD_eq_getElem?_getD, hl] at h

theorem transformRowAux_ok_shape (row : RawRow) (hs : List String) (n : Nat) :
    ∀ (keys : List String) (t : List (String × JsNum)),
      transformRowAux row hs n keys = Except.ok t →
        t = keys.map (fun k => (k, (fieldValue row hs k).getD (JsNum.fin 0)))
        ∧ ∀ k ∈ keys, (fieldValue row hs k).isSome = true := by
  intro keys
  induction keys with
  | nil =>
      intro t ht
      rw [transformRowAux, Except.ok.injEq] at ht
      subst ht
      exact ⟨rfl, by simp⟩
  | cons key keys ih =>
      intro t ht
      rw [transformRowAux] at ht
      cases hf : transformField row hs n key with
      | error e => rw [hf] at ht; cases ht
      | ok q =>
          rw [hf] at ht
          cases ha : transformRowAux row hs n keys with
          | error e => rw [ha] at ht; cases ht
          | ok rest =>
              rw [ha, Except.ok.injEq] at ht
              subst ht
              have hfv := (transformField_ok_iff row hs n key q).mp hf
              obtain ⟨hrest, hall⟩ := ih rest ha
              constructor
              · rw [List.map_cons, hfv, ← hrest]
                rfl
              · intro k hk
                rcases List.mem_cons.mp hk with rfl | hk
                · rw [hfv]; rfl
                · exact hall k hk

theorem transformRowAux_ok_of_all (row : RawRow) (hs : List String) (n : Nat) :
    ∀ keys : List String,
      (∀ k ∈ keys, (fieldValue row hs k).isSome = true) →
        ∃ t, transformRowAux row hs n keys = Except.ok t := by
  intro keys
  induction keys with
  | nil => intro _; exact ⟨[], rfl⟩
  | cons key keys ih =>
      intro hall
      obtain ⟨q, hq⟩ := Option.isSome_iff_exists.mp (hall key (List.mem_cons_self key keys))
      obtain ⟨rest, hrest⟩ := ih (fun k hk => hall k (List.mem_cons_of_mem key hk))
      refine ⟨(key, q) :: rest, ?_⟩
      rw [transformRowAux, (transformField_ok_iff row hs n key q).mpr hq, hrest]

theorem transformRowAux_error_from_field (row : RawRow) (hs : List String) (n : Nat) :
    ∀ (keys : List String) (m : String),
      transformRowAux row hs n keys = Except.error m →
        ∃ k ∈ keys, transformField row hs n k = Except.error m := by
  intro keys
  induction keys with
  | nil => intro m hm; cases hm
  | cons key keys ih =>
      intro m hm
      rw [transformRowAux] at hm
      cases hf : transformField row hs n key with
      | error e =>
          rw [hf] at hm
          rw [Except.error.injEq] at hm
          subst hm
          exact ⟨key, List.mem_cons_self key keys, hf⟩
      | ok q =>
          rw [hf] at hm
          cases ha : transformRowAux row hs n keys with
          | error e =>
              rw [ha] at hm
              rw [Except.error.injEq] at hm
              subst hm
              obtain ⟨k, hk, hkf⟩ := ih _ ha
              exact ⟨k, List.mem_cons_of_mem key hk, hkf⟩
          | ok rest => rw [ha] at hm; cases hm

theorem processRowsAux_warnings_mem (hs : List String) :
    ∀ (rows : List RawRow) (i : Nat) (w : String),
      w ∈ (processRowsAux hs rows i).2.2 →
        ∃ j r, rows[j]? = some r ∧ transformRow r hs (i + j + 2) = Except.error w := by
  intro rows
  induction rows with
  | nil => intro i w hw; cases hw
  | cons r rs ih =>
      intro i w hw
      rw [processRowsAux] at hw
      cases ht : transformRow r hs (i + 2) with
      | ok t =>
          rw [ht] at hw
          obtain ⟨j, r', h1, h2⟩ := ih (i + 1) w hw
          refine ⟨j + 1, r', by rw [List.getElem?_cons_succ]; exact h1, ?_⟩
          rw [show i + (j + 1) + 2 = i + 1 + j + 2 by omega]
          exact h2
      | error e =>
          rw [ht] at hw
          rcases List.mem_cons.mp hw with rfl | hw
          · exact ⟨0, r, List.getElem?_cons_zero, by simpa using ht⟩
          · obtain ⟨j, r', h1, h2⟩ := ih (i + 1) w hw
            refine ⟨j + 1, r', by rw [List.getElem?_cons_succ]; exact h1, ?_⟩
            rw [show i + (j + 1) + 2 = i + 1 + j + 2 by omega]
            exact h2

/-- C8 amended: row validation is all-or-nothing and locates failures.  A
row is accepted exactly when all four canonical fields resolve and their
cells parse as non-`NaN` numbers — the code checks only `isNaN`, so
non-finite parses such as `parseFloat('Infinity')` are also accepted and
finiteness is not guaranteed (see the counterexample) — and the accepted
reading consists of exactly those four field values; every rejection
message starts with the 1-based CSV row number (`Row n:`) and quotes some
canonical field that failed to validate; and every warning collected by
`handleParseCsv` is the `transformRow` error of the row at 0-based position
`j`, numbered `j + 2` (header row is row 1, so the first data row is
row 2). -/
theorem row_validation_all_or_nothing (row : RawRow) (hs : List String) (n : Nat) :
    (∀ t, transformRow row hs n = Except.ok t →
        t = requiredBackendKeys.map
            (fun k => (k, (fieldValue row hs k).getD (JsNum.fin 0)))
        ∧ ∀ k ∈ requiredBackendKeys, (fieldValue row hs k).isSome = true)
    ∧ ((∀ k ∈ requiredBackendKeys, (fieldValue row hs k).isSome = true) →
        ∃ t, transformRow row hs n = Except.ok t)
    ∧ (∀ m, transformRow row hs n = Except.error m →
        (∃ s, m = ("Row " ++ toString n ++ ": ") ++ s)
        ∧ ∃ k, k ∈ requiredBackendKeys ∧ fieldValue row hs k = none
            ∧ ∃ pre post, m = pre ++ ("'" ++ k ++ "'") ++ post)
    ∧ (∀ (rows : List RawRow) (w : String), w ∈ (processRows hs rows).2.2 →
        ∃ j r, rows[j]? = some r ∧ transformRow r hs (j + 2) = Except.error w) := by
  refine ⟨?_, ?_, ?_, ?_⟩
  · exact fun t ht => transformRowAux_ok_shape row hs n requiredBackendKeys t ht
  · exact fun hall => transformRowAux_ok_of_all row hs n requiredBackendKeys hall
  · intro m hm
    obtain ⟨k, hk, hkf⟩ := transformRowAux_error_from_field row hs n requiredBackendKeys m hm
    obtain ⟨hnone, hpre, hquote⟩ := transformField_error_shape row hs n k m hkf
    exact ⟨hpre, k, hk, hnone, hquote⟩
  · intro rows w hw
    obtain ⟨j, r, h1, h2⟩ := processRowsAux_warnings_mem hs rows 0 w hw
    exact ⟨j, r, h1, by simpa using h2⟩

/-- Input file header row of the spec's validation scenario. -/
def scenarioHeaders : List String :=
  ["x direction", "y direction", "bearing temp", "env temp"]

/-- A well-formed data row of the scenario. -/
def scenarioGoodRow : RawRow :=
  [("x direction", CellVal.numeric (JsNum.fin 1)),
   ("y direction", CellVal.numeric (JsNum.fin 2)),
   ("bearing temp", CellVal.numeric (JsNum.fin 3)),
   ("env temp", CellVal.numeric (JsNum.fin 4))]

/-- The scenario's invalid row: `bearing temp` holds the non-numeric
string `N/A`. -/
def scenarioBadRow : RawRow :=
  [("x direction", CellVal.numeric (JsNum.fin 1)),
   ("y direction", CellVal.numeric (JsNum.fin 2)),
   ("bearing temp", CellVal.nonNumeric "N/A"),
   ("env temp", CellVal.numeric (JsNum.fin 4))]

/-- The validated reading produced for `scenarioGoodRow`. -/
def scenarioGoodReading : List (String × JsNum) :=
  [("x_direction", JsNum.fin 1), ("y_direction", JsNum.fin 2),
   ("bearing_temperature", JsNum.fin 3), ("env_temperature", JsNum.fin 4)]

/-- The scenario row with `bearing temp` holding the cell string
`Infinity`: `parseFloat('Infinity')` is `Infinity` and `isNaN(Infinity)` is
`false`, so the code's check at the `isNaN` branch accepts it. -/
def scenarioInfRow : RawRow :=
  [("x direction", CellVal.numeric (JsNum.fin 1)),
   ("y direction", CellVal.numeric (JsNum.fin 2)),
   ("bearing temp", CellVal.numeric JsNum.posInf),
   ("env temp", CellVal.numeric (JsNum.fin 4))]

/-- C8 counterexample: a row is not accepted "only if all 4 canonical
fields parse as finite numbers" — the validator checks only `isNaN`, so a
row whose `bearing temp` cell parses to `Infinity` is fully accepted, with
the non-finite value stored for `bearing_temperature`. -/
theorem row_validation_finiteness_counterexample :
    transformRow scenarioInfRow scenarioHeaders 2 =
      Except.ok [("x_direction", JsNum.fin 1), ("y_direction", JsNum.fin 2),
        ("bearing_temperature", JsNum.posInf), ("env_temperature", JsNum.fin 4)]
    ∧ JsNum.posInf.isFinite = false := by
  exact ⟨rfl, rfl⟩


/-- Witness for C8: the concrete well-formed scenario row is accepted with
exactly its four resolved field values. -/
theorem row_validation_all_or_nothing_witness :
    transformRow scenarioGoodRow scenarioHeaders 2 =
      Except.ok (requiredBackendKeys.map
        (fun k => (k, (fieldValue scenarioGoodRow scenarioHeaders k).getD (JsNum.fin 0)))) := by
  have hk : ∀ k ∈ requiredBackendKeys,
      (fieldValue scenarioGoodRow scenarioHeaders k).isSome = true := by decide
  obtain ⟨t, ht⟩ := (row_validation_all_or_nothing scenarioGoodRow scenarioHeaders 2).2.1 hk
  have hshape := ((row_validation_all_or_nothing scenarioGoodRow scenarioHeaders 2).1 t ht).1
  rw [ht, hshape]

/-! ### C9: header resolution -/

/-- C9 counterexample: the resolution is not whitespace-insensitive.  The
supplied header `x  direction` (two interior spaces) differs from the alias
`x direction` only in whitespace — their fully whitespace-stripped
lowercase forms coincide — yet `x_direction` fails to resolve. -/
theorem header_resolution_whitespace_counterexample :
    resolveHeader "x_direction" ["x  direction"] = none
    ∧ ("x direction", "x_direction") ∈ headerMapping
    ∧ norm5 "x  direction" = norm5 "x direction" := by
  refine ⟨by decide, by decide, by decide⟩

theorem findSome?_filter_eq {γ : Type} (l : List (String × String)) (key : String)
    (f : String → Option γ) :
    (l.filter (fun p => p.2 == key)).findSome? (fun p => f p.1)
      = l.findSome? (fun p => if p.2 == key then f p.1 else none) := by
  induction l with
  | nil => rfl
  | cons p l ih =>
      by_cases hp : p.2 == key
      · rw [List.filter_cons, if_pos hp, List.findSome?_cons, List.findSome?_cons, if_pos hp]
        cases f p.1 <;> simp [ih]
      · rw [List.filter_cons, if_neg hp, List.findSome?_cons,
          if_neg hp, ih]

theorem findSome?_congr {γ δ : Type} (l : List γ) (f g : γ → Option δ)
    (h : ∀ a ∈ l, f a = g a) : l.findSome? f = l.findSome? g := by
  induction l with
  | nil => rfl
  | cons a l ih =>
      rw [List.findSome?_cons, List.findSome?_cons, h a (List.mem_cons_self a l),
        ih (fun b hb => h b (List.mem_cons_of_mem a hb))]

theorem alias_lower_eq_norm : ∀ p ∈ headerMapping, strLower p.1 = normalizeHeader p.1 := by
  decide

/-- C9 amended: header resolution is case-insensitive and insensitive to
leading/trailing whitespace only (headers are lowercased and trimmed;
interior whitespace must match exactly).  Under that normalization the code
realizes exactly the claimed two-stage strategy: for each canonical field,
every alias spelling whose normalized form equals a normalized supplied
header is tried first in table order, and only when no alias matches is an
exact normalized match against the canonical field name itself used. -/
theorem header_resolution_amended (key : String) (hkey : key ∈ requiredBackendKeys)
    (hs hs' : List String) (hnorm : hs'.map normalizeHeader = hs.map normalizeHeader) :
    resolveHeader key hs = resolveHeaderSpec key hs
    ∧ resolveHeader key hs' = resolveHeader key hs := by
  constructor
  · have hk : strLower key = normalizeHeader key := by
      simp only [requiredBackendKeys, List.mem_cons, List.not_mem_nil, or_false] at hkey
      rcases hkey with rfl | rfl | rfl | rfl <;> decide
    unfold resolveHeader resolveCore resolveHeaderSpec
    rw [findSome?_filter_eq headerMapping key
      (fun a => jsIndexOf (hs.map normalizeHeader) (normalizeHeader a))]
    rw [findSome?_congr headerMapping
      (fun p => if p.2 == key then jsIndexOf (hs.map normalizeHeader) (strLower p.1) else none)
      (fun p => if p.2 == key then jsIndexOf (hs.map normalizeHeader) (normalizeHeader p.1) else none)
      (fun p hp =>
        show (if (p.2 == key) = true
            then jsIndexOf (hs.map normalizeHeader) (strLower p.1) else none)
          = (if (p.2 == key) = true
            then jsIndexOf (hs.map normalizeHeader) (normalizeHeader p.1) else none) from by
          rw [alias_lower_eq_norm p hp])]
    rw [hk]
  · unfold resolveHeader
    rw [hnorm]

/-- Witness for C9's amended claim: a header differing from an alias only
in case and surrounding whitespace resolves, and normalization-equal header
lists resolve identically. -/
theorem header_resolution_amended_witness :
    resolveHeader "x_direction" ["X Direction "] = resolveHeaderSpec "x_direction" ["X Direction "]
    ∧ resolveHeader "x_direction" ["x direction"] = resolveHeader "x_direction" ["X Direction "] :=
  header_resolution_amended "x_direction" (by decide) ["X Direction "] ["x direction"] (by decide)

/-! ### C10: the part_005 direct backend-key fallback -/

/-- A row of the part_005 scenario whose alias-resolved columns all hold
unusable cells (non-numeric, empty, or absent). -/
def aliasBadRow : RawRow :=
  [("x direction", CellVal.nonNumeric "bad"), ("y direction", CellVal.emptyCell),
   ("bearing temp", CellVal.nonNumeric "N/A"), ("env temp", CellVal.missing)]

/-- C10: even though every alias-resolved column of the row holds a
missing, empty, or non-numeric value, the part_005 validator still accepts
the row through the direct columns named exactly by the canonical backend
keys, using their numeric values; without those direct columns the same row
is rejected — so rejection is not decided solely by the alias-resolved
column's cell. -/
theorem direct_backend_key_fallback (a b c d : JsNum) :
    transformRow5 (aliasBadRow ++
        [("x_direction", CellVal.numeric a), ("y_direction", CellVal.numeric b),
         ("bearing_tem", CellVal.numeric c), ("env_temp", CellVal.numeric d)])
      scenarioHeaders
      = some [("x_direction", a), ("y_direction", b), ("bearing_tem", c), ("env_temp", d)]
    ∧ transformRow5 aliasBadRow scenarioHeaders = none := by
  exact ⟨rfl, by decide⟩

/-! ### C3: sequences are built only from validated readings -/

theorem processRows_valid_mem (hs : List String) :
    ∀ (rows : List RawRow) (i : Nat) (t : List (String × JsNum)),
      t ∈ (processRowsAux hs rows i).1 →
        ∃ r, r ∈ rows ∧ ∃ n, transformRow r hs n = Except.ok t := by
  intro rows
  induction rows with
  | nil => intro i t ht; cases ht
  | cons r rs ih =>
      intro i t ht
      rw [processRowsAux] at ht
      cases hr : transformRow r hs (i + 2) with
      | ok u =>
          rw [hr] at ht
          rcases List.mem_cons.mp ht with rfl | ht
          · exact ⟨r, List.mem_cons_self r rs, i + 2, hr⟩
          · obtain ⟨r', hr', n, hn⟩ := ih (i + 1) t ht
            exact ⟨r', List.mem_cons_of_mem r hr', n, hn⟩
      | error e =>
          rw [hr] at ht
          obtain ⟨r', hr', n, hn⟩ := ih (i + 1) t ht
          exact ⟨r', List.mem_cons_of_mem r hr', n, hn⟩

theorem mem_of_mem_windowSequences {α : Type} (rs : List α) (s : List α)
    (hs : s ∈ windowSequences rs) (t : α) (ht : t ∈ s) : t ∈ rs := by
  have : t ∈ (windowSequences rs).flatten := List.mem_flatten.mpr ⟨s, hs, ht⟩
  rw [windowSequences_flatten] at this
  exact List.mem_of_mem_take this

theorem transformRow_scenarioGood (n : Nat) :
    transformRow scenarioGoodRow scenarioHeaders n = Except.ok scenarioGoodReading := rfl

theorem processRowsAux_append (hs : List String) :
    ∀ (l₁ l₂ : List RawRow) (i : Nat),
      processRowsAux hs (l₁ ++ l₂) i =
        ((processRowsAux hs l₁ i).1 ++ (processRowsAux hs l₂ (i + l₁.length)).1,
         (processRowsAux hs l₁ i).2.1 + (processRowsAux hs l₂ (i + l₁.length)).2.1,
         (processRowsAux hs l₁ i).2.2 ++ (processRowsAux hs l₂ (i + l₁.length)).2.2) := by
  intro l₁
  induction l₁ with
  | nil => intro l₂ i; simp [processRowsAux]
  | cons r l₁ ih =>
      intro l₂ i
      rw [List.cons_append, processRowsAux, processRowsAux, ih l₂ (i + 1)]
      rw [List.length_cons, Nat.add_right_comm i 1 l₁.length]
      cases transformRow r hs (i + 2) with
      | ok t => simp [Nat.add_assoc]
      | error e => simp [Nat.add_assoc, Nat.add_comm]

theorem processRowsAux_replicate_good :
    ∀ (m i : Nat),
      processRowsAux scenarioHeaders (List.replicate m scenarioGoodRow) i =
        (List.replicate m scenarioGoodReading, 0, []) := by
  intro m
  induction m with
  | zero => intro i; rfl
  | succ m ih =>
      intro i
      rw [List.replicate_succ, processRowsAux, transformRow_scenarioGood, ih (i + 1),
        List.replicate_succ]

/-- The scenario input: 100 data rows, all well formed except the 42nd
(0-based index 41), whose `bearing temp` cell is `N/A`. -/
def scenarioRows : List RawRow :=
  List.replicate 41 scenarioGoodRow ++ ([scenarioBadRow] ++ List.replicate 58 scenarioGoodRow)

theorem processRows_scenario :
    processRows scenarioHeaders scenarioRows =
      (List.replicate 41 scenarioGoodReading ++ List.replicate 58 scenarioGoodReading, 1,
        ["Row 43: Value 'N/A' in column 'bearing temp' (for sensor 'bearing_temperature') is not a valid number."]) := by
  rw [processRows, scenarioRows, processRowsAux_append, processRowsAux_append,
    processRowsAux_replicate_good, processRowsAux_replicate_good]
  rfl

/-- C3: every reading of every formed sequence comes from a row that passed
validation (in the tsx pipeline, a `transformRow` success; in the part_005
per-batch pipeline, a `transformRow` non-null result) — rejected rows never
contribute; and in the spec's scenario of 100 rows with a single invalid
`bearing temp = N/A` row, validation keeps 99 readings, drops exactly 1 row,
forms exactly 1 sequence (not 2), and produces exactly one rejection record
citing row 43 and the `bearing_temperature` field. -/
theorem sequences_only_from_validated (hs : List String) (rows : List RawRow)
    (data : List RawRow) (hs5 : List String) (i : Nat) :
    (∀ s ∈ windowSequences (processRows hs rows).1, ∀ t ∈ s,
        ∃ r, r ∈ rows ∧ ∃ n, transformRow r hs n = Except.ok t)
    ∧ (∀ t ∈ seqRows5 data hs5 i, ∃ r, r ∈ data ∧ transformRow5 r hs5 = some t)
    ∧ (processRows scenarioHeaders scenarioRows).1.length = 99
    ∧ (processRows scenarioHeaders scenarioRows).2.1 = 1
    ∧ (windowSequences (processRows scenarioHeaders scenarioRows).1).length = 1
    ∧ (processRows scenarioHeaders scenarioRows).2.2 =
        ["Row 43: Value 'N/A' in column 'bearing temp' (for sensor 'bearing_temperature') is not a valid number."] := by
  refine ⟨?_, ?_, ?_, ?_, ?_, ?_⟩
  · intro s hsmem t htmem
    have hvalid : t ∈ (processRows hs rows).1 :=
      mem_of_mem_windowSequences _ s hsmem t htmem
    exact processRows_valid_mem hs rows 0 t hvalid
  · intro t ht
    obtain ⟨r, hr, hok⟩ := List.mem_filterMap.mp ht
    exact ⟨r, List.mem_of_mem_drop (List.mem_of_mem_take hr), hok⟩
  · rw [processRows_scenario]; simp
  · rw [processRows_scenario]
  · rw [processRows_scenario, windowSequences_length]
    simp
  · rw [processRows_scenario]

/-- Witness for C3's universally quantified parts at a concrete input:
50 valid rows form one sequence whose readings all come from successfully
validated rows. -/
theorem sequences_only_from_validated_witness :
    ∃ r, r ∈ List.replicate 50 scenarioGoodRow ∧
      ∃ n, transformRow r scenarioHeaders n = Except.ok scenarioGoodReading := by
  have h := (sequences_only_from_validated scenarioHeaders
    (List.replicate 50 scenarioGoodRow) [] scenarioHeaders 0).1
  apply h (List.replicate 50 scenarioGoodReading) ?_ scenarioGoodReading ?_
  · have hv : (processRows scenarioHeaders (List.replicate 50 scenarioGoodRow)).1 =
        List.replicate 50 scenarioGoodReading := by
      rw [processRows, processRowsAux_replicate_good]
    rw [hv]
    exact List.mem_singleton.mpr rfl
  · exact List.mem_replicate.mpr ⟨by norm_num, rfl⟩

end RulDash
